import Mathlib

/-!
Verification of the RBAC authorization core of the CareConnect repository.

The embedding below follows the source:
* `src/shared/schema.ts` — the four RBAC tables (`permissions`, `roles`,
  `role_permissions`, `user_roles`) plus the `users` table, their columns and
  the `onDelete: 'cascade'` foreign keys, and the drizzle-zod insert schemas.
* `src/unnamed/part_002` (`DatabaseStorage`) — `getUserPermissions`,
  `deleteRole`, `updateRole`, `createRole`, `assignPermissionToRole`,
  `removePermissionFromRole`, `assignRoleToUser`, `removeRoleFromUser`,
  `getUserWithRoles`.
* `src/server/routes.ts` — the permission gate used by the admin routes.
* `src/scripts/seed-rbac.ts` — the seeded system roles and the legacy
  role-migration loop.

Tables are lists of rows; `createdAt`/`updatedAt` timestamp columns and the
users' `password` column are projected away (no claim mentions them, and no
operation modelled here reads them).  SQL joins are nested flat-maps over
filtered row lists, which is the nested-loop semantics of the drizzle
queries in the source.
-/

namespace CareConnect

/-- Row of the `users` table (`schema.ts`): id, email, name, the legacy
enum-valued `role` column and `isActive`. -/
structure User where
  id : String
  email : String
  name : String
  role : String
  isActive : Bool
  deriving Repr, DecidableEq

/-- Row of the `permissions` table: id, unique dotted name, description,
category. -/
structure Permission where
  id : String
  name : String
  description : Option String
  category : String
  deriving Repr, DecidableEq

/-- Row of the `roles` table: id, unique name, description and the
`isSystemRole` flag (default false in the schema). -/
structure Role where
  id : String
  name : String
  description : Option String
  isSystemRole : Bool
  deriving Repr, DecidableEq

/-- Row of the `role_permissions` join table.  The only uniqueness
constraint in the schema is the `id` primary key: there is no unique
constraint on the pair `(roleId, permissionId)`. -/
structure RolePermission where
  id : String
  roleId : String
  permissionId : String
  deriving Repr, DecidableEq

/-- Row of the `user_roles` join table.  As for `role_permissions`, the only
uniqueness constraint is the `id` primary key; the pair `(userId, roleId)`
is not constrained unique. -/
structure UserRole where
  id : String
  userId : String
  roleId : String
  assignedBy : Option String
  deriving Repr, DecidableEq

/-- The relational store restricted to the five tables the RBAC core
touches. -/
structure DB where
  users : List User
  permissions : List Permission
  roles : List Role
  rolePermissions : List RolePermission
  userRoles : List UserRole
  deriving Repr, DecidableEq

/-! ## Permission resolution (`DatabaseStorage.getUserPermissions`)

The source builds one inner-join chain
`users ⋈ user_roles ⋈ roles ⋈ role_permissions ⋈ permissions`
filtered by the user id, projects the permission `name` column, and
deduplicates with a JavaScript `Set` (insertion order, first occurrence
kept). -/

/-- The projected rows of the source's join, in nested-loop order.  Each
join condition is the one written in the drizzle query. -/
def permRows (db : DB) (userId : String) : List String :=
  (db.users.filter (fun usr => usr.id == userId)).flatMap (fun usr =>
    (db.userRoles.filter (fun ur => usr.id == ur.userId)).flatMap (fun ur =>
      (db.roles.filter (fun r => ur.roleId == r.id)).flatMap (fun r =>
        (db.rolePermissions.filter (fun rp => r.id == rp.roleId)).flatMap (fun rp =>
          (db.permissions.filter (fun p => rp.permissionId == p.id)).map
            (fun p => p.name)))))

/-- One step of filling a JavaScript `Set`: insert `x` unless present. -/
def insertUnique (l : List String) (x : String) : List String :=
  if x ∈ l then l else l ++ [x]

/-- `Array.from(new Set(l))`: first-occurrence deduplication. -/
def jsSetDedup (l : List String) : List String :=
  l.foldl insertUnique []

/-- `DatabaseStorage.getUserPermissions`: join, project names, dedup. -/
def getUserPermissions (db : DB) (userId : String) : List String :=
  jsSetDedup (permRows db userId)

/-- Specification-level description of one resolved permission: a join
witness chain user → user-role → role → role-permission → permission. -/
def PermChain (db : DB) (userId pname : String) : Prop :=
  ∃ usr ∈ db.users, usr.id = userId ∧
    ∃ ur ∈ db.userRoles, usr.id = ur.userId ∧
      ∃ r ∈ db.roles, ur.roleId = r.id ∧
        ∃ rp ∈ db.rolePermissions, r.id = rp.roleId ∧
          ∃ p ∈ db.permissions, rp.permissionId = p.id ∧ p.name = pname

/-- A join witness chain that avoids one role id: the permissions a user
still reaches when the role `rid` is ignored. -/
def PermChainExcept (db : DB) (rid userId pname : String) : Prop :=
  ∃ usr ∈ db.users, usr.id = userId ∧
    ∃ ur ∈ db.userRoles, usr.id = ur.userId ∧
      ∃ r ∈ db.roles, ur.roleId = r.id ∧ r.id ≠ rid ∧
        ∃ rp ∈ db.rolePermissions, r.id = rp.roleId ∧
          ∃ p ∈ db.permissions, rp.permissionId = p.id ∧ p.name = pname

/-! ## Role registry operations (`DatabaseStorage`) -/

/-- `select from roles where id = id limit 1`, as used by `deleteRole`. -/
def findRole (db : DB) (id : String) : Option Role :=
  (db.roles.filter (fun r => r.id == id)).head?

/-- `DatabaseStorage.deleteRole`: refuse when the role is absent or a system
role; otherwise delete the row and report `rowCount > 0`.  The deletion of
the matching `role_permissions` and `user_roles` rows is the
`onDelete: 'cascade'` declared on their foreign keys in `schema.ts`. -/
def deleteRole (db : DB) (id : String) : Bool × DB :=
  match findRole db id with
  | none => (false, db)
  | some r =>
    if r.isSystemRole then (false, db)
    else
      let remaining := db.roles.filter (fun x => !(x.id == id))
      (remaining.length < db.roles.length,
        { db with
          roles := remaining,
          rolePermissions := db.rolePermissions.filter (fun rp => !(rp.roleId == id)),
          userRoles := db.userRoles.filter (fun ur => !(ur.roleId == id)) })

/-- `Partial<InsertRole>` as accepted by `DatabaseStorage.updateRole`.
`insertRoleSchema` omits only `id`, `createdAt` and `updatedAt`, so the
updatable fields are `name`, `description` and — notably — `isSystemRole`. -/
structure RolePatch where
  name : Option String := none
  description : Option (Option String) := none
  isSystemRole : Option Bool := none
  deriving Repr, DecidableEq

/-- `update roles set <patch>`: each provided column overwrites the row. -/
def applyRolePatch (r : Role) (u : RolePatch) : Role :=
  { r with
    name := u.name.getD r.name,
    description := u.description.getD r.description,
    isSystemRole := u.isSystemRole.getD r.isSystemRole }

/-- `DatabaseStorage.updateRole`: update every row matching the id, return
the first returned row (or none). -/
def updateRole (db : DB) (id : String) (u : RolePatch) : Option Role × DB :=
  (((db.roles.filter (fun r => r.id == id)).map (fun r => applyRolePatch r u)).head?,
    { db with
      roles := db.roles.map (fun r => if r.id == id then applyRolePatch r u else r) })

/-- The value produced by `insertRoleSchema.parse`: `name` is required,
`description` and `isSystemRole` are optional (both columns have defaults
in the table), and `isSystemRole` is NOT stripped by the schema. -/
structure InsertRole where
  name : String
  description : Option String := none
  isSystemRole : Option Bool := none
  deriving Repr, DecidableEq

/-- A request body for the role-creation endpoint, restricted to the fields
`insertRoleSchema` reads. -/
structure RoleBody where
  name : Option String := none
  description : Option String := none
  isSystemRole : Option Bool := none
  deriving Repr, DecidableEq

/-- `insertRoleSchema.parse`: fail when `name` is missing, pass the other
fields through unchanged. -/
def insertRoleSchemaParse (b : RoleBody) : Option InsertRole :=
  match b.name with
  | none => none
  | some n => some { name := n, description := b.description, isSystemRole := b.isSystemRole }

/-- `DatabaseStorage.createRole`: insert the row; the table default
`isSystemRole = false` applies only when the field is absent from the
insert values. -/
def createRole (db : DB) (newId : String) (r : InsertRole) : Role × DB :=
  let role : Role :=
    { id := newId, name := r.name, description := r.description,
      isSystemRole := r.isSystemRole.getD false }
  (role, { db with roles := db.roles ++ [role] })

/-! ## Assignment store operations -/

/-- `DatabaseStorage.assignPermissionToRole`: a plain insert — no
`onConflictDoNothing`, and the schema has no unique constraint on the pair,
so every call appends a fresh row (`newId` is the generated primary key). -/
def assignPermissionToRole (db : DB) (roleId permissionId newId : String) :
    RolePermission × DB :=
  let rp : RolePermission := { id := newId, roleId := roleId, permissionId := permissionId }
  (rp, { db with rolePermissions := db.rolePermissions ++ [rp] })

/-- `DatabaseStorage.assignRoleToUser`: likewise a plain insert. -/
def assignRoleToUser (db : DB) (userId roleId : String)
    (assignedBy : Option String) (newId : String) : UserRole × DB :=
  let ur : UserRole := { id := newId, userId := userId, roleId := roleId, assignedBy := assignedBy }
  (ur, { db with userRoles := db.userRoles ++ [ur] })

/-- `DatabaseStorage.removePermissionFromRole`: delete all rows matching
both ids, report `rowCount > 0`. -/
def removePermissionFromRole (db : DB) (roleId permissionId : String) : Bool × DB :=
  let remaining := db.rolePermissions.filter
    (fun rp => !(rp.roleId == roleId && rp.permissionId == permissionId))
  (remaining.length < db.rolePermissions.length,
    { db with rolePermissions := remaining })

/-- `DatabaseStorage.removeRoleFromUser`: delete all rows matching both
ids, report `rowCount > 0`. -/
def removeRoleFromUser (db : DB) (userId roleId : String) : Bool × DB :=
  let remaining := db.userRoles.filter
    (fun ur => !(ur.userId == userId && ur.roleId == roleId))
  (remaining.length < db.userRoles.length,
    { db with userRoles := remaining })

/-- Number of `role_permissions` rows for one (roleId, permissionId) pair. -/
def rolePermPairCount (db : DB) (roleId permissionId : String) : Nat :=
  (db.rolePermissions.filter
    (fun rp => rp.roleId == roleId && rp.permissionId == permissionId)).length

/-- Number of `user_roles` rows for one (userId, roleId) pair. -/
def userRolePairCount (db : DB) (userId roleId : String) : Nat :=
  (db.userRoles.filter
    (fun ur => ur.userId == userId && ur.roleId == roleId)).length

/-! ## Enforcement gate (`routes.ts`)

Every admin route starts with
`const userPermissions = await storage.getUserPermissions(req.user!.id);`
`if (!userPermissions.includes('<perm>')) return res.status(403)...`. -/

/-- The membership test the routes perform on the resolved set. -/
def requirePermission (db : DB) (userId permissionName : String) : Bool :=
  (getUserPermissions db userId).contains permissionName

/-- Outcome of the gate as seen by the route layer. -/
inductive GateResult where
  | allowed
  | insufficientPermissions
  deriving Repr, DecidableEq

/-- The gate of `GET /api/admin/users` (`routes.ts` lines 267–289): check
`admin.manage_users` against the caller's resolved set; a denial answers
403 before any further storage call, and the handler performs no mutation
in either branch (its body is a read). -/
def adminUsersGate (db : DB) (callerId : String) : GateResult × DB :=
  if requirePermission db callerId "admin.manage_users" then
    (GateResult.allowed, db)
  else
    (GateResult.insufficientPermissions, db)

/-- `POST /api/admin/roles` (`routes.ts` lines 403–420): gate on
`admin.manage_roles`, parse the body with `insertRoleSchema`, create the
role. -/
def postAdminRolesHandler (db : DB) (callerId newId : String) (body : RoleBody) :
    Option Role × DB :=
  if requirePermission db callerId "admin.manage_roles" then
    match insertRoleSchemaParse body with
    | none => (none, db)
    | some r =>
      let res := createRole db newId r
      (some res.1, res.2)
  else
    (none, db)

/-! ## `DatabaseStorage.getUserWithRoles`

The source left-joins users with the three RBAC tables, takes the first
returned row, and builds the result from that row's `users` column only:
`return { ...userData, userRoles: [] }` — the joined role and permission
columns are bound to local variables and then discarded. -/

/-- Left-join matching: the rows of the right table satisfying the join
condition, or a single null row when none does. -/
def leftMatches {α : Type} (l : List α) (p : α → Bool) : List (Option α) :=
  match l.filter p with
  | [] => [none]
  | ms => ms.map some

/-- One row of the four-fold left join in `getUserWithRoles`, with the
drizzle result-column names. -/
structure UserJoinRow where
  users : User
  user_roles : Option UserRole
  roles : Option Role
  role_permissions : Option RolePermission
  permissions : Option Permission
  deriving Repr, DecidableEq

/-- The join of `getUserWithRoles`: users filtered by id, left-joined to
`user_roles`, `roles`, `role_permissions` and `permissions` on the
conditions written in the query.  A null left side matches nothing. -/
def userWithRolesRows (db : DB) (id : String) : List UserJoinRow :=
  (db.users.filter (fun u => u.id == id)).flatMap (fun u =>
    (leftMatches db.userRoles (fun ur => u.id == ur.userId)).flatMap (fun ur? =>
      (leftMatches db.roles
          (fun r => (ur?.map (fun ur => ur.roleId == r.id)).getD false)).flatMap (fun r? =>
        (leftMatches db.rolePermissions
            (fun rp => (r?.map (fun r => r.id == rp.roleId)).getD false)).flatMap (fun rp? =>
          (leftMatches db.permissions
              (fun p => (rp?.map (fun rp => rp.permissionId == p.id)).getD false)).map
            (fun p? => UserJoinRow.mk u ur? r? rp? p?)))))

/-- The detailed assignment entry the `UserWithRoles` type declares
(`schema.ts`): a user-role row with its role and that role's permission
rows.  `getUserWithRoles` never produces one. -/
structure UserRoleExpanded where
  userRole : UserRole
  role : Role
  rolePerms : List (RolePermission × Permission)
  deriving Repr, DecidableEq

/-- The `UserWithRoles` projection returned to callers. -/
structure UserWithRoles where
  user : User
  userRoles : List UserRoleExpanded
  deriving Repr, DecidableEq

/-- `DatabaseStorage.getUserWithRoles`: first joined row or undefined, and
the result's `userRoles` field is the literal empty list from the source. -/
def getUserWithRoles (db : DB) (id : String) : Option UserWithRoles :=
  match (userWithRolesRows db id).head? with
  | none => none
  | some row => some { user := row.users, userRoles := [] }

/-! ## Seeded system roles and the legacy role mapper (`seed-rbac.ts`) -/

/-- One entry of the seed script's `ROLES` constant (name, flag and the
granted permission names). -/
structure SeedRole where
  name : String
  isSystemRole : Bool
  permissionNames : List String
  deriving Repr, DecidableEq

/-- The `ROLES` constant of `seed-rbac.ts` (permission lists abridged to
the names the claims mention; every entry's `isSystemRole` is transcribed
verbatim). -/
def seedRoles : List SeedRole :=
  [ { name := "Master Admin", isSystemRole := true,
      permissionNames := ["admin.manage_users", "admin.manage_roles"] },
    { name := "Clinic Admin", isSystemRole := true,
      permissionNames := ["patients.view", "admin.manage_users"] },
    { name := "Doctor", isSystemRole := true,
      permissionNames := ["patients.view", "clinical.notes.edit"] },
    { name := "Nurse", isSystemRole := true,
      permissionNames := ["patients.view", "clinical.notes.view"] },
    { name := "Receptionist", isSystemRole := true,
      permissionNames := ["patients.view", "appointments.create"] },
    { name := "Analytics Only", isSystemRole := true,
      permissionNames := ["patients.view", "reports.view"] },
    { name := "Staff", isSystemRole := true,
      permissionNames := ["patients.view", "schedule.view_own"] } ]

/-- `name.toLowerCase().replace(/[\s-]/g, '_')`, the key normalisation the
migration loop applies to role names, character by character (JavaScript
`toLowerCase` is per-character on these ASCII names). -/
def normalizeRoleName (s : String) : String :=
  String.mk (s.toList.map (fun c =>
    let lc := c.toLower
    if lc.isWhitespace || lc == '-' then '_' else lc))

/-- The `switch (user.role)` of the migration loop: legacy enum value to
role-map key.  `staff` and every unrecognised value fall through to the
default branch. -/
def legacyKey (role : String) : String :=
  match role with
  | "master-admin" => "master_admin"
  | "admin" => "clinic_admin"
  | "doctor" => "doctor"
  | "nurse" => "nurse"
  | "receptionist" => "receptionist"
  | "analytics-only" => "analytics_only"
  | _ => "staff"

/-- The `roleMap` lookup: a JavaScript `Map` built from
`[normalize(name), id]` pairs keeps the last entry per key. -/
def lookupRoleByKey (rolesList : List Role) (key : String) : Option String :=
  (((rolesList.map (fun r => (normalizeRoleName r.name, r.id))).reverse).find?
    (fun kv => kv.1 == key)).map (fun kv => kv.2)

/-- Legacy enum value to the name of the RBAC role the migration loop
selects, given the current roles table. -/
def legacyTargetName (rolesList : List Role) (legacy : String) : Option String :=
  (lookupRoleByKey rolesList (legacyKey legacy)).bind (fun rid =>
    (rolesList.find? (fun r => r.id == rid)).map (fun r => r.name))

/-- One iteration of the migration loop for one user: resolve the target
role id and insert a `user_roles` row with `onConflictDoNothing()`.  The
only unique constraint on `user_roles` is the `id` primary key, so the
conflict clause fires only when a row with the same (freshly generated)
`id` already exists — never on a duplicate (userId, roleId) pair. -/
def migrateUser (db : DB) (newId : String) (u : User) : DB :=
  match lookupRoleByKey db.roles (legacyKey u.role) with
  | none => db
  | some rid =>
    if db.userRoles.any (fun ur => ur.id == newId) then db
    else { db with userRoles := db.userRoles ++ [⟨newId, u.id, rid, none⟩] }

/-! ## Concrete stores used by the claim theorems and witnesses -/

/-- A concrete store holding one seeded system role, used to witness C1. -/
def dbC1 : DB :=
  { users := [], permissions := [],
    roles := [{ id := "r1", name := "Master Admin", description := none, isSystemRole := true }],
    rolePermissions := [], userRoles := [] }

/-- A store for the C2 witness: user `u1` holds roles `rA` and `rB`, both
granting `patients.view`, and `rB` additionally `reports.view`. -/
def dbC2 : DB :=
  { users := [{ id := "u1", email := "a@x", name := "Ada", role := "doctor", isActive := true }],
    permissions :=
      [{ id := "p1", name := "patients.view", description := none, category := "patients" },
       { id := "p2", name := "reports.view", description := none, category := "reports" }],
    roles :=
      [{ id := "rA", name := "Doctor", description := none, isSystemRole := true },
       { id := "rB", name := "Analytics Only", description := none, isSystemRole := true }],
    rolePermissions :=
      [{ id := "x1", roleId := "rA", permissionId := "p1" },
       { id := "x2", roleId := "rB", permissionId := "p1" },
       { id := "x3", roleId := "rB", permissionId := "p2" }],
    userRoles :=
      [{ id := "y1", userId := "u1", roleId := "rA", assignedBy := none },
       { id := "y2", userId := "u1", roleId := "rB", assignedBy := none }] }

/-- The same store with the role assignments in the opposite order. -/
def dbC2swap : DB :=
  { dbC2 with
    userRoles :=
      [{ id := "y2", userId := "u1", roleId := "rB", assignedBy := none },
       { id := "y1", userId := "u1", roleId := "rA", assignedBy := none }] }

/-- A store holding one custom (non-system) role. -/
def dbC4 : DB :=
  { users := [], permissions := [],
    roles := [{ id := "r1", name := "Custom Role", description := none, isSystemRole := false }],
    rolePermissions := [], userRoles := [] }

/-- A store with one permission and one custom role, no assignments. -/
def dbC5 : DB :=
  { users := [{ id := "u1", email := "a@x", name := "Ada", role := "staff", isActive := true }],
    permissions := [{ id := "p1", name := "patients.view", description := none, category := "patients" }],
    roles := [{ id := "r1", name := "Custom", description := none, isSystemRole := false }],
    rolePermissions := [],
    userRoles := [{ id := "y1", userId := "u1", roleId := "r1", assignedBy := none }] }

/-- The store after one `assignPermissionToRole("r1", "p1")` call. -/
def dbC5once : DB := (assignPermissionToRole dbC5 "r1" "p1" "a1").2

/-- The store after a second call with the same pair. -/
def dbC5twice : DB := (assignPermissionToRole dbC5once "r1" "p1" "a2").2

/-- A store where user `u1` holds only the custom role `rX`, which grants
`reports.view`. -/
def dbC6 : DB :=
  { users := [{ id := "u1", email := "a@x", name := "Ada", role := "staff", isActive := true }],
    permissions := [{ id := "p1", name := "reports.view", description := none, category := "reports" }],
    roles := [{ id := "rX", name := "Analysts", description := none, isSystemRole := false }],
    rolePermissions := [{ id := "z1", roleId := "rX", permissionId := "p1" }],
    userRoles := [{ id := "y1", userId := "u1", roleId := "rX", assignedBy := none }] }

/-- The seven seeded roles with fixed ids, as the migration loop reads them
back from the store. -/
def rolesC7 : List Role :=
  [ { id := "role-master", name := "Master Admin", description := none, isSystemRole := true },
    { id := "role-clinic", name := "Clinic Admin", description := none, isSystemRole := true },
    { id := "role-doctor", name := "Doctor", description := none, isSystemRole := true },
    { id := "role-nurse", name := "Nurse", description := none, isSystemRole := true },
    { id := "role-recep", name := "Receptionist", description := none, isSystemRole := true },
    { id := "role-analytics", name := "Analytics Only", description := none, isSystemRole := true },
    { id := "role-staff", name := "Staff", description := none, isSystemRole := true } ]

/-- A user with the legacy `doctor` role. -/
def userDoctorC7 : User :=
  { id := "u1", email := "d@x", name := "Dana", role := "doctor", isActive := true }

/-- The store after a first migration run: `u1` already holds the Doctor
role. -/
def dbC7 : DB :=
  { users := [userDoctorC7], permissions := [], roles := rolesC7,
    rolePermissions := [],
    userRoles := [{ id := "ur1", userId := "u1", roleId := "role-doctor", assignedBy := none }] }

/-- A store whose user `c1` resolves `admin.manage_roles` through the
Master Admin role, so `c1` passes the role-management gate. -/
def dbC9 : DB :=
  { users := [{ id := "c1", email := "m@x", name := "Max", role := "master-admin", isActive := true }],
    permissions := [{ id := "pm", name := "admin.manage_roles", description := none, category := "admin" }],
    roles := [{ id := "rM", name := "Master Admin", description := none, isSystemRole := true }],
    rolePermissions := [{ id := "q1", roleId := "rM", permissionId := "pm" }],
    userRoles := [{ id := "w1", userId := "c1", roleId := "rM", assignedBy := none }] }

/-! ## Basic lemmas about the dedup and the join -/

theorem mem_insertUnique {l : List String} {x y : String} :
    y ∈ insertUnique l x ↔ y ∈ l ∨ y = x := by
  unfold insertUnique
  by_cases h : x ∈ l
  · simp only [if_pos h]
    constructor
    · exact Or.inl
    · rintro (hy | rfl)
      · exact hy
      · exact h
  · simp [if_neg h]

theorem nodup_insertUnique {l : List String} {x : String} (h : l.Nodup) :
    (insertUnique l x).Nodup := by
  unfold insertUnique
  by_cases hx : x ∈ l
  · simpa [if_pos hx] using h
  · rw [if_neg hx]
    refine List.Nodup.append h (List.nodup_singleton x) ?_
    intro a ha hb
    rcases List.mem_singleton.mp hb with rfl
    exact hx ha

theorem mem_foldl_insertUnique :
    ∀ (l init : List String) (x : String),
      x ∈ List.foldl insertUnique init l ↔ x ∈ init ∨ x ∈ l := by
  intro l
  induction l with
  | nil => simp
  | cons a t ih =>
      intro init x
      rw [List.foldl_cons, ih, mem_insertUnique, List.mem_cons]
      tauto

theorem nodup_foldl_insertUnique :
    ∀ (l init : List String), init.Nodup →
      (List.foldl insertUnique init l).Nodup := by
  intro l
  induction l with
  | nil => intro init h; simpa using h
  | cons a t ih =>
      intro init h
      rw [List.foldl_cons]
      exact ih _ (nodup_insertUnique h)

theorem mem_jsSetDedup {l : List String} {x : String} :
    x ∈ jsSetDedup l ↔ x ∈ l := by
  unfold jsSetDedup
  rw [mem_foldl_insertUnique]
  simp

theorem nodup_jsSetDedup (l : List String) : (jsSetDedup l).Nodup :=
  nodup_foldl_insertUnique l [] List.nodup_nil

theorem mem_permRows {db : DB} {u p : String} :
    p ∈ permRows db u ↔ PermChain db u p := by
  unfold permRows PermChain
  simp only [List.mem_flatMap, List.mem_filter, List.mem_map, beq_iff_eq]
  constructor
  · rintro ⟨usr, ⟨husr, hid⟩, ur, ⟨hur, hlink⟩, r, ⟨hr, hrl⟩, rp, ⟨hrp, hrpl⟩,
      pm, ⟨⟨hpm, hpl⟩, hname⟩⟩
    exact ⟨usr, husr, hid, ur, hur, hlink, r, hr, hrl, rp, hrp, hrpl,
      pm, hpm, hpl, hname⟩
  · rintro ⟨usr, husr, hid, ur, hur, hlink, r, hr, hrl, rp, hrp, hrpl,
      pm, hpm, hpl, hname⟩
    exact ⟨usr, ⟨husr, hid⟩, ur, ⟨hur, hlink⟩, r, ⟨hr, hrl⟩, rp, ⟨hrp, hrpl⟩,
      pm, ⟨⟨hpm, hpl⟩, hname⟩⟩

theorem mem_getUserPermissions {db : DB} {u p : String} :
    p ∈ getUserPermissions db u ↔ PermChain db u p := by
  unfold getUserPermissions
  rw [mem_jsSetDedup, mem_permRows]

/-! ## General helper lemmas -/

theorem head?_mem {α : Type} {l : List α} {a : α} (h : l.head? = some a) : a ∈ l := by
  cases l with
  | nil => simp at h
  | cons x t =>
    simp only [List.head?_cons, Option.some.injEq] at h
    exact h ▸ List.mem_cons_self x t

theorem length_filter_lt_iff {α : Type} (p : α → Bool) (l : List α) :
    (l.filter p).length < l.length ↔ ∃ x ∈ l, p x = false := by
  induction l with
  | nil => simp
  | cons a t ih =>
    cases hpa : p a with
    | true =>
      simp only [List.filter_cons, hpa, if_true, List.length_cons,
        Nat.succ_lt_succ_iff, ih, List.mem_cons]
      constructor
      · rintro ⟨x, hx, hpx⟩; exact ⟨x, Or.inr hx, hpx⟩
      · rintro ⟨x, hx | hx, hpx⟩
        · subst hx; rw [hpa] at hpx; cases hpx
        · exact ⟨x, hx, hpx⟩
    | false =>
      simp only [List.filter_cons, hpa, if_false, List.length_cons]
      constructor
      · intro _; exact ⟨a, List.mem_cons_self a t, hpa⟩
      · intro _; exact Nat.lt_succ_of_le (List.length_filter_le p t)

theorem filter_eq_self_of_all {α : Type} {p : α → Bool} {l : List α}
    (h : ∀ x ∈ l, p x = true) : l.filter p = l := by
  induction l with
  | nil => rfl
  | cons a t ih =>
    rw [List.filter_cons, if_pos (h a (List.mem_cons_self a t))]
    rw [ih (fun x hx => h x (List.mem_cons_of_mem a hx))]

/-! ## Claim C1 -/

/-- Claim C1: `deleteRole(id)` returns false and removes no row when the
role does not exist or its `isSystemRole` flag is set; and every seeded
role of the seed script carries `isSystemRole = true`, so deleting any of
them leaves the roles table unchanged and reports failure. -/
theorem C1_deleteRole_protected (db : DB) (id : String)
    (h : findRole db id = none ∨ (findRole db id).map Role.isSystemRole = some true) :
    deleteRole db id = (false, db) ∧
      seedRoles.all (fun sr => sr.isSystemRole) = true := by
  refine ⟨?_, by decide⟩
  rcases h with h | h
  · unfold deleteRole
    rw [h]
  · unfold deleteRole
    cases hf : findRole db id with
    | none => rfl
    | some r =>
      rw [hf] at h
      simp only [Option.map_some', Option.some.injEq] at h
      simp [h]

/-- Witness for C1 at the concrete store: the seeded system role exists and
is protected. -/
theorem C1_deleteRole_protected_witness :
    ((findRole dbC1 "r1").map Role.isSystemRole = some true) ∧
      (deleteRole dbC1 "r1" = (false, dbC1) ∧
        seedRoles.all (fun sr => sr.isSystemRole) = true) :=
  ⟨by decide, C1_deleteRole_protected dbC1 "r1" (Or.inr (by decide))⟩

/-! ## Claim C2 -/

/-- Claim C2: `getUserPermissions` returns a duplicate-free list whose
members are exactly the permissions reachable through the user's role
assignments (the deduplicated union over all assigned roles); a user with
zero role assignments resolves to the empty list, and permuting the
assignment rows leaves the resolved set unchanged. -/
theorem C2_resolvePermissions (db db2 : DB) (u p : String)
    (husers : db2.users = db.users) (hroles : db2.roles = db.roles)
    (hrp : db2.rolePermissions = db.rolePermissions)
    (hperms : db2.permissions = db.permissions)
    (hur : db2.userRoles.Perm db.userRoles) :
    (getUserPermissions db u).Nodup ∧
    (p ∈ getUserPermissions db u ↔ PermChain db u p) ∧
    (db.userRoles.all (fun ur => !(ur.userId == u)) = true →
      getUserPermissions db u = []) ∧
    (p ∈ getUserPermissions db2 u ↔ p ∈ getUserPermissions db u) := by
  refine ⟨nodup_jsSetDedup _, mem_getUserPermissions, ?_, ?_⟩
  · intro h
    rw [List.eq_nil_iff_forall_not_mem]
    intro q hq
    rw [mem_getUserPermissions] at hq
    obtain ⟨usr, -, hid, ur, hur', hlink, -⟩ := hq
    have hall := List.all_eq_true.mp h ur hur'
    have : ur.userId = u := by rw [← hlink, hid]
    rw [this] at hall
    simp at hall
  · rw [mem_getUserPermissions, mem_getUserPermissions]
    unfold PermChain
    rw [husers, hroles, hrp, hperms]
    constructor
    · rintro ⟨usr, h1, h2, ur, h3, rest⟩
      exact ⟨usr, h1, h2, ur, hur.mem_iff.mp h3, rest⟩
    · rintro ⟨usr, h1, h2, ur, h3, rest⟩
      exact ⟨usr, h1, h2, ur, hur.mem_iff.mpr h3, rest⟩

/-- Witness for C2 at the concrete store, with the permuted assignment
table discharging the permutation hypothesis. -/
theorem C2_resolvePermissions_witness :
    (getUserPermissions dbC2 "u1").Nodup ∧
    ("patients.view" ∈ getUserPermissions dbC2 "u1" ↔
      PermChain dbC2 "u1" "patients.view") ∧
    (dbC2.userRoles.all (fun ur => !(ur.userId == "u1")) = true →
      getUserPermissions dbC2 "u1" = []) ∧
    ("patients.view" ∈ getUserPermissions dbC2swap "u1" ↔
      "patients.view" ∈ getUserPermissions dbC2 "u1") :=
  C2_resolvePermissions dbC2 dbC2swap "u1" "patients.view" rfl rfl rfl rfl (by decide)

/-! ## Claim C3 -/

/-- Claim C3: the enforcement gate allows a request exactly when the
required name is in the caller's resolved permission set; the
`GET /api/admin/users` gate allows exactly the callers whose resolved set
contains `admin.manage_users`, answers an authorization failure otherwise,
and changes no state in either branch. -/
theorem C3_requirePermission_gate (db : DB) (u p : String) :
    (requirePermission db u p = true ↔ PermChain db u p) ∧
    ((adminUsersGate db u).1 = GateResult.allowed ↔
      PermChain db u "admin.manage_users") ∧
    ((adminUsersGate db u).1 = GateResult.insufficientPermissions ↔
      ¬PermChain db u "admin.manage_users") ∧
    (adminUsersGate db u).2 = db := by
  have hmem : ∀ q, requirePermission db u q = true ↔ PermChain db u q := by
    intro q
    unfold requirePermission
    rw [List.elem_iff, mem_getUserPermissions]
  refine ⟨hmem p, ?_, ?_, ?_⟩
  · unfold adminUsersGate
    by_cases hgate : requirePermission db u "admin.manage_users" = true
    · simp only [hgate, if_true]
      simpa using (hmem "admin.manage_users").mp hgate
    · rw [if_neg (by simpa using hgate)]
      constructor
      · intro h; cases h
      · intro h
        exact absurd ((hmem "admin.manage_users").mpr h) hgate
  · unfold adminUsersGate
    by_cases hgate : requirePermission db u "admin.manage_users" = true
    · simp only [hgate, if_true]
      constructor
      · intro h; cases h
      · intro h
        exact absurd ((hmem "admin.manage_users").mp hgate) h
    · rw [if_neg (by simpa using hgate)]
      constructor
      · intro _ hc
        exact hgate ((hmem "admin.manage_users").mpr hc)
      · intro _; rfl
  · unfold adminUsersGate
    by_cases hgate : requirePermission db u "admin.manage_users" = true
    · simp [hgate]
    · rw [if_neg (by simpa using hgate)]

/-! ## Claim C4 -/

/-- Claim C4 is violated by the code: `updateRole` applies a provided
`isSystemRole` field verbatim — `insertRoleSchema` omits only `id`,
`createdAt` and `updatedAt` — so this call turns a role with
`isSystemRole = false` into one with `isSystemRole = true`, and the
updated row is both returned and stored. -/
theorem C4_updateRole_sets_isSystemRole :
    (updateRole dbC4 "r1" { isSystemRole := some true }).1 =
      some { id := "r1", name := "Custom Role", description := none, isSystemRole := true } ∧
    (updateRole dbC4 "r1" { isSystemRole := some true }).2.roles =
      [{ id := "r1", name := "Custom Role", description := none, isSystemRole := true }] := by
  exact ⟨rfl, rfl⟩

/-! ## Claim C5 -/

/-- Counterexample to C5: the second call with the same (roleId,
permissionId) pair is not a no-op — it inserts a second association row,
so two rows for the pair exist afterwards, not one. -/
theorem C5_counterexample :
    rolePermPairCount dbC5twice "r1" "p1" = 2 ∧ dbC5twice ≠ dbC5once := by
  decide

/-- Claim C5 as amended: `assignPermissionToRole` is not idempotent — each
call appends a fresh row, so two calls with the same pair add exactly two
rows for that pair; resolution is nevertheless unaffected, because the
duplicate row changes no user's resolved permission set. -/
theorem C5_assign_appends (db : DB) (rid pid i1 i2 u p : String) :
    rolePermPairCount
        (assignPermissionToRole (assignPermissionToRole db rid pid i1).2 rid pid i2).2 rid pid =
      rolePermPairCount db rid pid + 2 ∧
    (p ∈ getUserPermissions
        (assignPermissionToRole (assignPermissionToRole db rid pid i1).2 rid pid i2).2 u ↔
      p ∈ getUserPermissions (assignPermissionToRole db rid pid i1).2 u) := by
  constructor
  · simp [rolePermPairCount, assignPermissionToRole, List.filter_append]
  · rw [mem_getUserPermissions, mem_getUserPermissions]
    unfold PermChain assignPermissionToRole
    simp only [List.mem_append, List.mem_singleton]
    constructor
    · rintro ⟨usr, h1, h2, ur, h3, h4, r, h5, h6, rp, hrp, h7, pm, h8, h9, h10⟩
      rcases hrp with hrp | rfl
      · exact ⟨usr, h1, h2, ur, h3, h4, r, h5, h6, rp, hrp, h7, pm, h8, h9, h10⟩
      · refine ⟨usr, h1, h2, ur, h3, h4, r, h5, h6,
          { id := i1, roleId := rid, permissionId := pid }, Or.inr rfl, h7, pm, h8, h9, h10⟩
    · rintro ⟨usr, h1, h2, ur, h3, h4, r, h5, h6, rp, hrp, h7, pm, h8, h9, h10⟩
      exact ⟨usr, h1, h2, ur, h3, h4, r, h5, h6, rp, Or.inl hrp, h7, pm, h8, h9, h10⟩

/-! ## Claim C6 -/

theorem filter_eq_nil_of_all {α : Type} {p : α → Bool} {l : List α}
    (h : ∀ x ∈ l, p x = false) : l.filter p = [] := by
  induction l with
  | nil => rfl
  | cons a t ih =>
    rw [List.filter_cons, if_neg (by simp [h a (List.mem_cons_self a t)])]
    exact ih (fun x hx => h x (List.mem_cons_of_mem a hx))

/-- Resolution against the cascade-filtered store is resolution avoiding
the deleted role. -/
theorem permChain_filter_iff (db : DB) (rid u p : String) :
    PermChain
      { db with
        roles := db.roles.filter (fun x => !(x.id == rid)),
        rolePermissions := db.rolePermissions.filter (fun rp => !(rp.roleId == rid)),
        userRoles := db.userRoles.filter (fun ur => !(ur.roleId == rid)) } u p ↔
    PermChainExcept db rid u p := by
  unfold PermChain PermChainExcept
  simp only [List.mem_filter, Bool.not_eq_true', beq_eq_false_iff_ne]
  constructor
  · rintro ⟨usr, h1, h2, ur, ⟨h3, -⟩, h4, r, ⟨h5, h5b⟩, h6, rp, ⟨h7, -⟩, h8, pm, h9, h10, h11⟩
    exact ⟨usr, h1, h2, ur, h3, h4, r, h5, h6, h5b, rp, h7, h8, pm, h9, h10, h11⟩
  · rintro ⟨usr, h1, h2, ur, h3, h4, r, h5, h6, hne, rp, h7, h8, pm, h9, h10, h11⟩
    refine ⟨usr, h1, h2, ur, ⟨h3, ?_⟩, h4, r, ⟨h5, hne⟩, h6, rp, ⟨h7, ?_⟩, h8, pm, h9, h10, h11⟩
    · rw [h6]; exact hne
    · rw [← h8]; exact hne

/-- Claim C6: deleting an existing non-system role succeeds and cascades
through both join tables: afterwards a user resolves exactly the
permissions reachable while avoiding the deleted role, and a user whose
every assignment pointed at that role resolves to the empty set. -/
theorem C6_deleteRole_cascade (db : DB) (rid : String) (r0 : Role) (u p : String)
    (hfind : findRole db rid = some r0) (hsys : r0.isSystemRole = false) :
    (deleteRole db rid).1 = true ∧
    (p ∈ getUserPermissions (deleteRole db rid).2 u ↔ PermChainExcept db rid u p) ∧
    (db.userRoles.all (fun ur => !(ur.userId == u) || ur.roleId == rid) = true →
      getUserPermissions (deleteRole db rid).2 u = []) := by
  have hr0 : r0 ∈ db.roles ∧ (r0.id == rid) = true :=
    List.mem_filter.mp (head?_mem hfind)
  have hdel : deleteRole db rid =
      (((db.roles.filter (fun x => !(x.id == rid))).length < db.roles.length : Bool),
      { db with
        roles := db.roles.filter (fun x => !(x.id == rid)),
        rolePermissions := db.rolePermissions.filter (fun rp => !(rp.roleId == rid)),
        userRoles := db.userRoles.filter (fun ur => !(ur.roleId == rid)) }) := by
    unfold deleteRole
    rw [hfind]
    simp [hsys]
  have hone : (deleteRole db rid).1 = true := by
    rw [hdel]
    simp only [decide_eq_true_eq]
    exact (length_filter_lt_iff _ _).mpr ⟨r0, hr0.1, by simp [hr0.2]⟩
  have hmemiff : p ∈ getUserPermissions (deleteRole db rid).2 u ↔
      PermChainExcept db rid u p := by
    rw [hdel, mem_getUserPermissions, permChain_filter_iff]
  refine ⟨hone, hmemiff, ?_⟩
  intro hall
  rw [List.eq_nil_iff_forall_not_mem]
  intro q hq
  rw [hdel, mem_getUserPermissions, permChain_filter_iff] at hq
  obtain ⟨usr, -, h2, ur, h3, h4, r, -, h6, hne, -⟩ := hq
  have hu : ur.userId = u := by rw [← h4, h2]
  have := List.all_eq_true.mp hall ur h3
  rw [hu] at this
  simp only [BEq.refl, Bool.not_true, Bool.false_or] at this
  have hrr : ur.roleId = rid := by simpa using this
  exact hne (by rw [← h6]; exact hrr)

/-- Witness for C6: deleting the only role of `u1` empties the resolved
set. -/
theorem C6_deleteRole_cascade_witness :
    (findRole dbC6 "rX" =
      some { id := "rX", name := "Analysts", description := none, isSystemRole := false }) ∧
    ((deleteRole dbC6 "rX").1 = true ∧
      ("reports.view" ∈ getUserPermissions (deleteRole dbC6 "rX").2 "u1" ↔
        PermChainExcept dbC6 "rX" "u1" "reports.view") ∧
      (dbC6.userRoles.all (fun ur => !(ur.userId == "u1") || ur.roleId == "rX") = true →
        getUserPermissions (deleteRole dbC6 "rX").2 "u1" = [])) :=
  ⟨by decide,
    C6_deleteRole_cascade dbC6 "rX"
      { id := "rX", name := "Analysts", description := none, isSystemRole := false }
      "u1" "reports.view" (by decide) rfl⟩

/-! ## Claim C7 -/

/-- Claim C7, evidence of the code bug: with the seeded roles in the
store, the mapper realises exactly the claimed fixed table — but
re-running the migration for a user who already holds the mapped role
inserts a second `user_roles` row for the same (user, role) pair, because
`user_roles` has no unique constraint on that pair and
`onConflictDoNothing()` therefore never fires. -/
theorem C7_migration_duplicate :
    legacyTargetName rolesC7 "master-admin" = some "Master Admin" ∧
    legacyTargetName rolesC7 "admin" = some "Clinic Admin" ∧
    legacyTargetName rolesC7 "doctor" = some "Doctor" ∧
    legacyTargetName rolesC7 "nurse" = some "Nurse" ∧
    legacyTargetName rolesC7 "receptionist" = some "Receptionist" ∧
    legacyTargetName rolesC7 "analytics-only" = some "Analytics Only" ∧
    legacyTargetName rolesC7 "staff" = some "Staff" ∧
    legacyTargetName rolesC7 "office-temp" = some "Staff" ∧
    userRolePairCount dbC7 "u1" "role-doctor" = 1 ∧
    userRolePairCount (migrateUser dbC7 "ur2" userDoctorC7) "u1" "role-doctor" = 2 := by
  decide

/-! ## Claim C8 -/

/-- Claim C8: `removePermissionFromRole` and `removeRoleFromUser` return
true exactly when a matching join row existed; on false the store is
untouched, and after a call no matching row remains. -/
theorem C8_remove_returns_bool (db : DB) (rid pid uid : String) :
    ((removePermissionFromRole db rid pid).1 = true ↔
      ∃ rp ∈ db.rolePermissions, rp.roleId = rid ∧ rp.permissionId = pid) ∧
    ((removePermissionFromRole db rid pid).1 = false →
      (removePermissionFromRole db rid pid).2 = db) ∧
    rolePermPairCount (removePermissionFromRole db rid pid).2 rid pid = 0 ∧
    ((removeRoleFromUser db uid rid).1 = true ↔
      ∃ ur ∈ db.userRoles, ur.userId = uid ∧ ur.roleId = rid) ∧
    ((removeRoleFromUser db uid rid).1 = false →
      (removeRoleFromUser db uid rid).2 = db) ∧
    userRolePairCount (removeRoleFromUser db uid rid).2 uid rid = 0 := by
  refine ⟨?_, ?_, ?_, ?_, ?_, ?_⟩
  · simp only [removePermissionFromRole, decide_eq_true_eq]
    rw [length_filter_lt_iff]
    simp
  · intro hfalse
    simp only [removePermissionFromRole, decide_eq_false_iff_not] at hfalse
    rw [length_filter_lt_iff] at hfalse
    push_neg at hfalse
    have hall : ∀ x ∈ db.rolePermissions,
        (!(x.roleId == rid && x.permissionId == pid)) = true := by
      intro x hx
      cases hc : (!(x.roleId == rid && x.permissionId == pid)) with
      | true => rfl
      | false => exact absurd hc (hfalse x hx)
    show (removePermissionFromRole db rid pid).2 = db
    simp only [removePermissionFromRole]
    rw [filter_eq_self_of_all hall]
  · simp [rolePermPairCount, removePermissionFromRole, List.filter_filter]
  · simp only [removeRoleFromUser, decide_eq_true_eq]
    rw [length_filter_lt_iff]
    simp
  · intro hfalse
    simp only [removeRoleFromUser, decide_eq_false_iff_not] at hfalse
    rw [length_filter_lt_iff] at hfalse
    push_neg at hfalse
    have hall : ∀ x ∈ db.userRoles,
        (!(x.userId == uid && x.roleId == rid)) = true := by
      intro x hx
      cases hc : (!(x.userId == uid && x.roleId == rid)) with
      | true => rfl
      | false => exact absurd hc (hfalse x hx)
    show (removeRoleFromUser db uid rid).2 = db
    simp only [removeRoleFromUser]
    rw [filter_eq_self_of_all hall]
  · simp [userRolePairCount, removeRoleFromUser, List.filter_filter]

/-- Witness for C8 at the concrete store: removing an existing pair
reports true, and a second removal of the same pair reports false and
leaves the store unchanged. -/
theorem C8_remove_returns_bool_witness :
    (((removePermissionFromRole dbC2 "rA" "p1").1 = true ↔
        ∃ rp ∈ dbC2.rolePermissions, rp.roleId = "rA" ∧ rp.permissionId = "p1") ∧
      ((removePermissionFromRole dbC2 "rA" "p1").1 = false →
        (removePermissionFromRole dbC2 "rA" "p1").2 = dbC2) ∧
      rolePermPairCount (removePermissionFromRole dbC2 "rA" "p1").2 "rA" "p1" = 0 ∧
      ((removeRoleFromUser dbC2 "u1" "rA").1 = true ↔
        ∃ ur ∈ dbC2.userRoles, ur.userId = "u1" ∧ ur.roleId = "rA") ∧
      ((removeRoleFromUser dbC2 "u1" "rA").1 = false →
        (removeRoleFromUser dbC2 "u1" "rA").2 = dbC2) ∧
      userRolePairCount (removeRoleFromUser dbC2 "u1" "rA").2 "u1" "rA" = 0) :=
  C8_remove_returns_bool dbC2 "rA" "p1" "u1"

/-! ## Claim C9 -/

/-- Claim C9: the role-creation path accepts `isSystemRole` from caller
input — `insertRoleSchema` passes it through, so the POST handler creates
a role with `isSystemRole = true` that `deleteRole` thereafter refuses to
delete; the table default `false` applies only when the field is absent
from the request. -/
theorem C9_createRole_accepts_isSystemRole (db : DB) (callerId newId nm : String)
    (hfresh : db.roles.all (fun r => !(r.id == newId)) = true)
    (hcaller : requirePermission db callerId "admin.manage_roles" = true) :
    insertRoleSchemaParse { name := some nm, isSystemRole := some true } =
      some { name := nm, description := none, isSystemRole := some true } ∧
    (postAdminRolesHandler db callerId newId { name := some nm, isSystemRole := some true }).1 =
      some { id := newId, name := nm, description := none, isSystemRole := true } ∧
    deleteRole
        (postAdminRolesHandler db callerId newId
          { name := some nm, isSystemRole := some true }).2 newId =
      (false,
        (postAdminRolesHandler db callerId newId
          { name := some nm, isSystemRole := some true }).2) ∧
    (createRole db newId { name := nm }).1.isSystemRole = false := by
  have hhandler :
      postAdminRolesHandler db callerId newId { name := some nm, isSystemRole := some true } =
        (some { id := newId, name := nm, description := none, isSystemRole := true },
          { db with roles := db.roles ++
            [{ id := newId, name := nm, description := none, isSystemRole := true }] }) := by
    simp [postAdminRolesHandler, hcaller, insertRoleSchemaParse, createRole]
  have hnilfilter : db.roles.filter (fun r => r.id == newId) = [] := by
    refine filter_eq_nil_of_all ?_
    intro x hx
    have := List.all_eq_true.mp hfresh x hx
    simpa using this
  have hfind :
      findRole
        (postAdminRolesHandler db callerId newId
          { name := some nm, isSystemRole := some true }).2 newId =
        some { id := newId, name := nm, description := none, isSystemRole := true } := by
    rw [hhandler]
    unfold findRole
    show ((db.roles ++
        [({ id := newId, name := nm, description := none, isSystemRole := true } : Role)]).filter
          (fun r => r.id == newId)).head? = _
    rw [List.filter_append, hnilfilter]
    simp
  refine ⟨rfl, by rw [hhandler], ?_, rfl⟩
  unfold deleteRole
  rw [hfind]
  simp

/-- Witness for C9: through the concrete store whose caller `c1` holds
`admin.manage_roles`. -/
theorem C9_createRole_accepts_isSystemRole_witness :
    (dbC9.roles.all (fun r => !(r.id == "rNew")) = true ∧
      requirePermission dbC9 "c1" "admin.manage_roles" = true) ∧
    (insertRoleSchemaParse { name := some "Locked", isSystemRole := some true } =
        some { name := "Locked", description := none, isSystemRole := some true } ∧
      (postAdminRolesHandler dbC9 "c1" "rNew"
          { name := some "Locked", isSystemRole := some true }).1 =
        some { id := "rNew", name := "Locked", description := none, isSystemRole := true } ∧
      deleteRole
          (postAdminRolesHandler dbC9 "c1" "rNew"
            { name := some "Locked", isSystemRole := some true }).2 "rNew" =
        (false,
          (postAdminRolesHandler dbC9 "c1" "rNew"
            { name := some "Locked", isSystemRole := some true }).2) ∧
      (createRole dbC9 "rNew" { name := "Locked" }).1.isSystemRole = false) :=
  ⟨⟨by decide, by decide⟩,
    C9_createRole_accepts_isSystemRole dbC9 "c1" "rNew" "Locked" (by decide) (by decide)⟩

/-! ## Claim C10 -/

theorem leftMatches_ne_nil {α : Type} (l : List α) (p : α → Bool) :
    leftMatches l p ≠ [] := by
  unfold leftMatches
  cases h : l.filter p with
  | nil => simp
  | cons a t => simp

theorem flatMap_ne_nil {α β : Type} {l : List α} {f : α → List β}
    (hl : l ≠ []) (hf : ∀ a ∈ l, f a ≠ []) : l.flatMap f ≠ [] := by
  cases l with
  | nil => exact absurd rfl hl
  | cons a t =>
    intro hc
    rw [List.flatMap_cons] at hc
    exact hf a (List.mem_cons_self a t) (List.append_eq_nil.mp hc).1

theorem userWithRolesRows_ne_nil {db : DB} {id : String}
    (h : db.users.filter (fun u => u.id == id) ≠ []) :
    userWithRolesRows db id ≠ [] := by
  unfold userWithRolesRows
  refine flatMap_ne_nil h (fun u _ => ?_)
  refine flatMap_ne_nil (leftMatches_ne_nil _ _) (fun ur hur => ?_)
  refine flatMap_ne_nil (leftMatches_ne_nil _ _) (fun r hr => ?_)
  refine flatMap_ne_nil (leftMatches_ne_nil _ _) (fun rp hrp => ?_)
  intro hc
  exact leftMatches_ne_nil _ _ (List.map_eq_nil_iff.mp hc)

theorem userWithRolesRows_users_mem {db : DB} {id : String} {row : UserJoinRow}
    (h : row ∈ userWithRolesRows db id) :
    row.users ∈ db.users ∧ row.users.id = id := by
  unfold userWithRolesRows at h
  simp only [List.mem_flatMap, List.mem_map, List.mem_filter, beq_iff_eq] at h
  obtain ⟨u, ⟨hu, hid⟩, a, -, b, -, c, -, d, -, rfl⟩ := h
  exact ⟨hu, hid⟩

/-- Claim C10: `getUserWithRoles` discards the joined role and permission
data — whenever it returns a user projection, the `userRoles` list is
empty, however many assignments the user actually holds; and it does
return a projection for every existing user id. -/
theorem C10_getUserWithRoles_empty (db : DB) (id : String) :
    ((getUserWithRoles db id).map (fun r => r.userRoles)).getD [] = [] ∧
    (db.users.any (fun u => u.id == id) = true →
      ∃ r, getUserWithRoles db id = some r ∧ r.user ∈ db.users ∧ r.user.id = id ∧
        r.userRoles = []) := by
  constructor
  · cases h : (userWithRolesRows db id).head? with
    | none => simp [getUserWithRoles, h]
    | some row => simp [getUserWithRoles, h]
  · intro hany
    have hne : db.users.filter (fun u => u.id == id) ≠ [] := by
      obtain ⟨u, hu, hpred⟩ := List.any_eq_true.mp hany
      intro hc
      have hmem : u ∈ db.users.filter (fun u => u.id == id) :=
        List.mem_filter.mpr ⟨hu, hpred⟩
      rw [hc] at hmem
      exact (List.not_mem_nil u) hmem
    have hrows := userWithRolesRows_ne_nil hne
    cases h : (userWithRolesRows db id).head? with
    | none => exact absurd (List.head?_eq_none_iff.mp h) hrows
    | some row =>
      have hmem := userWithRolesRows_users_mem (head?_mem h)
      exact ⟨{ user := row.users, userRoles := [] },
        by simp [getUserWithRoles, h], hmem.1, hmem.2, rfl⟩

/-- Witness for C10 at the concrete store: `u1` holds two role
assignments, yet the returned projection's `userRoles` list is empty. -/
theorem C10_getUserWithRoles_empty_witness :
    (((getUserWithRoles dbC2 "u1").map (fun r => r.userRoles)).getD [] = [] ∧
      (dbC2.users.any (fun u => u.id == "u1") = true →
        ∃ r, getUserWithRoles dbC2 "u1" = some r ∧ r.user ∈ dbC2.users ∧
          r.user.id = "u1" ∧ r.userRoles = [])) ∧
    dbC2.users.any (fun u => u.id == "u1") = true ∧
    dbC2.userRoles.length = 2 :=
  ⟨C10_getUserWithRoles_empty dbC2 "u1", by decide, by decide⟩

end CareConnect
